import Mathlib

/-
Verification of `confcheck.py` (MichaelSims/confcheck).

This file gives a shallow embedding of the checklist-driven reconciliation
logic of `confcheck.py` and proves properties about it.  Conventions:

* A file system is modelled as a map from path strings to the optional byte
  contents of the regular file stored there (`none` when `os.path.isfile` is
  false).  External byte-level equality checks (`diff -q a b`, which exits 0
  exactly when the two files are byte-identical) are modelled as equality of
  the two contents.
* Operator keyboard input is modelled as a list of strings, one element per
  `raw_input` call; an exhausted list models an operator who never answers
  (the real prompt would block forever).
* Exit statuses of external commands that the script consults are inputs of
  the model; commands run with `abort_on_failure=False` whose boolean result
  the script discards (the `diff -u ... | less` pager pipelines) do not
  appear as model inputs because no part of the program state depends on
  them.
* The unbounded `while True:` escalation loop of check mode is modelled with
  explicit fuel; every loop iteration that continues consumes at least one
  element of operator input, so any fuel exceeding the input length is
  enough.
-/

/-- Byte contents of a file. -/
abbrev Bytes := List Nat

/-- File system state: path to contents of the regular file there, `none`
when `os.path.isfile(path)` is false. -/
abbrev FS := String → Option Bytes

/-- `SUCCESS = 0` (confcheck.py line 68). -/
def SUCCESS : Int := 0

/-- `FAILURE = 2` (confcheck.py line 69). -/
def FAILURE : Int := 2

/-- Python `str.lower()` restricted to ASCII, as applied to operator input. -/
def pyLower (s : String) : String :=
  String.mk (s.data.map Char.toLower)

/-- Python whitespace, the character class `str.strip()` removes. -/
def pyIsSpace (c : Char) : Bool :=
  c = ' ' || c = '\t' || c = '\n' || c = '\x0d' || c = '\x0b' || c = '\x0c'

/-- Python `str.strip()`: drop leading and trailing whitespace. -/
def pyStrip (s : String) : String :=
  String.mk (((s.data.dropWhile pyIsSpace).reverse.dropWhile pyIsSpace).reverse)

/-- Python `s.split(sep)` with a one-character separator and no limit, the
form `os.getcwd().split(os.path.sep)` uses: splitting an absolute path on
`/` yields a leading empty segment. -/
def pySplitAllGo (sep : Char) : List Char → List Char → List String
  | [], acc => [String.mk acc.reverse]
  | c :: cs, acc =>
    if c = sep then String.mk acc.reverse :: pySplitAllGo sep cs []
    else pySplitAllGo sep cs (c :: acc)

/-- Python `s.split(sep)` for a one-character separator. -/
def pySplitAll (sep : Char) (s : String) : List String :=
  pySplitAllGo sep s.data []

/-- Result of `prompt_user` run against a finite script of operator inputs:
either a response character together with the unconsumed inputs, or
`exhausted` when the script ran out (the real loop would keep waiting), or
`crash` for the `response[0]` IndexError reachable on empty input when the
response spec has no upper-case default. -/
inductive PromptResult where
  | ok (response : Char) (remaining : List String)
  | exhausted
  | crash
deriving DecidableEq

/-- The default response of `prompt_user` (confcheck.py lines 234-239): the
last character of `allowed_responses_string` that equals its own upper-case
form. -/
def defaultResponse (allowed_responses_string : String) : Option Char :=
  allowed_responses_string.data.foldl
    (fun acc item => if item = item.toUpper then some item else acc) none

/-- The allowed-response set of `prompt_user`: every character of
`allowed_responses_string`, lower-cased (confcheck.py line 239). -/
def allowedResponses (allowed_responses_string : String) : List Char :=
  allowed_responses_string.data.map Char.toLower

/-- `prompt_user(prompt, allowed_responses_string)` (confcheck.py lines
233-253) against a script of operator inputs.  Each iteration reads one
input, strips and lower-cases it; empty input resolves to the default
response (returned lower-cased); otherwise only the first character is kept
and it is accepted exactly when it belongs to the allowed set, else the loop
prints an error and asks again. -/
def prompt_user (allowed_responses_string : String) : List String → PromptResult
  | [] => .exhausted
  | input :: remaining =>
    let response := pyLower (pyStrip input)
    match response.data with
    | [] =>
      match defaultResponse allowed_responses_string with
      | some d => .ok d.toLower remaining
      | none => .crash
    | c :: _ =>
      if c ∈ allowedResponses allowed_responses_string then .ok c remaining
      else prompt_user allowed_responses_string remaining

/-- Python `s.split(sep, maxsplit)` helper on character lists: split on at
most `maxsplit` occurrences of `sep`, keeping the remainder whole. -/
def pySplitGo (sep : Char) : Nat → List Char → List Char → List String
  | _, [], acc => [String.mk acc.reverse]
  | 0, rest, acc => [String.mk (acc.reverse ++ rest)]
  | maxsplit + 1, c :: cs, acc =>
    if c = sep then String.mk acc.reverse :: pySplitGo sep maxsplit cs []
    else pySplitGo sep (maxsplit + 1) cs (c :: acc)

/-- Python `s.split(sep, maxsplit)`: at most `maxsplit` splits, so up to
`maxsplit + 1` fields. -/
def pySplit (sep : Char) (maxsplit : Nat) (s : String) : List String :=
  pySplitGo sep maxsplit s.data []

/-- An uncaught Python exception relevant to the checklist reader. -/
inductive PyError where
  | valueError
deriving DecidableEq

/-- Comment stripping of a checklist line: `re.sub(r'#.*$', '', line)`
(confcheck.py line 224) removes everything from the first `#` on. -/
def stripComment (line : String) : String :=
  String.mk (line.data.takeWhile (fun c => c ≠ '#'))

/-- Processing of a single checklist line (confcheck.py lines 224-229):
strip the comment, strip whitespace, skip the line when it has no comma,
otherwise `source, target = line.split(separator, 2)` — which raises
`ValueError` when the split yields three fields — and keep the pair when
both fields are non-empty (Python string truthiness). -/
def processChecklistLine (line : String) : Except PyError (Option (String × String)) :=
  let l := pyStrip (stripComment line)
  if l.data.contains ',' then
    match pySplit ',' 2 l with
    | [source, target] =>
      if source ≠ "" ∧ target ≠ "" then .ok (some (source, target)) else .ok none
    | _ => .error .valueError
  else .ok none

/-- `read_checklist` (confcheck.py lines 219-230) over the list of lines of
the checklist file, in file order.  An uncaught `ValueError` from the
two-name unpacking aborts the read. -/
def read_checklist : List String → Except PyError (List (String × String))
  | [] => .ok []
  | line :: rest =>
    match processChecklistLine line with
    | .error e => .error e
    | .ok none => read_checklist rest
    | .ok (some pair) =>
      match read_checklist rest with
      | .error e => .error e
      | .ok pairs => .ok (pair :: pairs)

/-- `run_command` (confcheck.py lines 273-315), reduced to the data that
decides control flow: the subprocess return code and the
`abort_on_failure` keyword.  Success is `return_code == 0`; on failure with
`abort_on_failure` the function raises `ExternalCommandFailure(return_code)`
(modelled as `Except.error return_code`), otherwise it returns whether the
command succeeded. -/
def run_command (return_code : Int) (abort_on_failure : Bool) : Except Int Bool :=
  let was_successful : Bool := return_code == 0
  if !was_successful && abort_on_failure then .error return_code
  else .ok was_successful

/-- The `__main__` block (confcheck.py lines 331-335): `sys.exit(main())`,
with `ExternalCommandFailure` caught and its `return_code` passed to
`sys.exit` verbatim.  The argument is the result of `main`: a normal return
value or a propagating `ExternalCommandFailure`. -/
def topLevel (mainResult : Except Int Int) : Int :=
  match mainResult with
  | .ok code => code
  | .error return_code => return_code

/-- Python list indexing `l[i]` with negative-index support; `none` models
`IndexError`. -/
def pyIndex (l : List String) (i : Int) : Option String :=
  if 0 ≤ i then l.get? i.toNat
  else
    let j : Int := (l.length : Int) + i
    if 0 ≤ j then l.get? j.toNat else none

/-- Result of one step of `main` that either lets execution proceed or ends
it. -/
inductive StepResult where
  | proceed
  | ret (code : Int)
  | indexError
  | blocked
deriving DecidableEq

/-- How the whole process ends. -/
inductive ProcExit where
  | code (c : Int)
  | hang
  | uncaught
deriving DecidableEq

/-- The host-location validation step of `main` (confcheck.py lines
119-128).  `if args.dir_level:` is false both when the flag is absent
(`None`) and when it is `0`, so the check runs only for a non-zero level.
When it runs, the current working directory is split on `/`, the segment
list is reversed and indexed with the level — an out-of-range level raises
`IndexError` — and the selected segment is compared with the hostname; on
mismatch the operator is prompted with spec `yN` and anything but `y`
returns `2`.  The `crash` prompt outcome (IndexError inside `prompt_user`)
is mapped to `indexError`; it is unreachable for spec `yN`. -/
def hostLocationStep (dirLevel : Option Int) (cwd hostname : String)
    (inputs : List String) : StepResult × List String :=
  match dirLevel with
  | none => (.proceed, inputs)
  | some n =>
    if n = 0 then (.proceed, inputs)
    else
      let path_parts := (pySplitAll '/' cwd).reverse
      match pyIndex path_parts n with
      | none => (.indexError, inputs)
      | some current_host_dir =>
        if current_host_dir = hostname then (.proceed, inputs)
        else
          match prompt_user "yN" inputs with
          | .ok c remaining =>
            if c = 'y' then (.proceed, remaining) else (.ret 2, remaining)
          | .exhausted => (.blocked, inputs)
          | .crash => (.indexError, inputs)

/-- How `main` ending in a given step result reaches the top level
(confcheck.py lines 331-335): a `return code` becomes `sys.exit(code)`; an
`IndexError` is not an `ExternalCommandFailure`, so no handler catches it
and the interpreter aborts with its unhandled-exception status (which is
`1`, not `2`); `proceed` means `main` continues past the step. -/
def mainAborts : StepResult → Option ProcExit
  | .proceed => none
  | .ret code => some (.code code)
  | .indexError => some .uncaught
  | .blocked => some .hang

/-- A subprocess invocation as issued through `run_command`: the command
string, the optional `cwd` keyword argument, and whether `shell=True`. -/
structure Cmd where
  command : String
  cwd : Option String
  shell : Bool
deriving DecidableEq

/-- `subprocess.Popen` working-directory semantics: the `cwd` keyword when
given, else the invoking process's current working directory. -/
def effectiveCwd (processCwd : String) (c : Cmd) : String :=
  match c.cwd with
  | some d => d
  | none => processCwd

/-- The subprocess invocations issued by `update_package_list` (confcheck.py
lines 195-216), in order: the package-inventory dump (Debian `dpkg` when
usable, RPM fallback otherwise) followed by `git add`, `git commit` and
`git push` wrapped in `sudo -u username sh -c "..."`.  None of the four
`run_command` calls passes a `cwd` keyword. -/
def update_package_list_cmds (hostname working_copy_dir username : String)
    (dpkgUsable : Bool) : List Cmd :=
  let package_list_file := if dpkgUsable then "dpkg-selections" else "package.list"
  let current_host_dir := working_copy_dir ++ "/" ++ hostname
  let inventory :=
    if dpkgUsable then
      "/usr/bin/dpkg --get-selections \\* > " ++ current_host_dir ++ "/conf/"
        ++ package_list_file
    else
      "/bin/rpm -qa --queryformat \"%\x7bNAME\x7d.%\x7bARCH\x7d.%\x7bVERSION\x7d\\n\" > "
        ++ current_host_dir ++ "/conf/" ++ package_list_file
  [ ⟨inventory, none, true⟩,
    ⟨"sudo -u " ++ username ++ " sh -c \"git add " ++ package_list_file ++ "\"", none, true⟩,
    ⟨"sudo -u " ++ username ++ " sh -c \"git commit -m \\\"Auto-commit by confcheck running on "
      ++ hostname ++ "\\\"\"", none, true⟩,
    ⟨"sudo -u " ++ username ++ " sh -c \"git push\"", none, true⟩ ]

/-- Run a sequence of subprocesses through `run_command` with the default
fatal policy, stopping at the first failure, which propagates as
`ExternalCommandFailure`. -/
def runAll : List Int → Except Int Unit
  | [] => .ok ()
  | return_code :: rest =>
    match run_command return_code true with
    | .error c => .error c
    | .ok _ => runAll rest

/-- Control flow of `update_package_list` (confcheck.py lines 195-216):
when `workingCopyDir/hostname` is not a directory it prints a message and
returns `FAILURE`; otherwise it runs the four subprocess invocations of
`update_package_list_cmds` (each with the shim's default fatal policy,
given their exit codes) and falls off the end, returning Python `None`
(modelled as `Option.none`). -/
def update_package_list (hostDirIsDir : Bool) (exits : List Int) :
    Except Int (Option Int) :=
  if hostDirIsDir then
    match runAll exits with
    | .error c => .error c
    | .ok _ => .ok none
  else .ok (some FAILURE)

/-- `sys.exit(value)` status semantics: `sys.exit(None)` terminates with
status `0`; an integer is used as the status. -/
def sysExitCode : Option Int → Int
  | none => 0
  | some c => c

/-- Process exit status of a package-list-mode run (confcheck.py line 116:
`return update_package_list(...)`, composed with the `__main__` block). -/
def packageModeExit (hostDirIsDir : Bool) (exits : List Int) : Int :=
  match update_package_list hostDirIsDir exits with
  | .ok v => sysExitCode v
  | .error c => c

/-- The ambient data of the checklist loop of `main`: the working copy
directory, the module path computed on line 137, the `-d` flag, and the
exit status the external `clear` command would report (the `clear`
invocations on lines 159 and 185 use the shim's default fatal policy, so
this status matters). -/
structure Ctx where
  workingCopyDir : String
  modulePath : String
  diffMode : Bool
  clearExit : Int

/-- `file_path_in_working_copy = "%s/%s/%s" % (working_copy_dir,
module_path, source)` (confcheck.py line 166). -/
def file_path_in_working_copy (ctx : Ctx) (source : String) : String :=
  ctx.workingCopyDir ++ "/" ++ ctx.modulePath ++ "/" ++ source

/-- Divergence verdict of one checklist entry (spec §3), in the order the
code tests the conditions. -/
inductive Verdict where
  | SourceMissing
  | TargetMissing
  | NotTracked
  | UpToDate
  | TargetModifiedLocally
  | TargetDiffersFromSource
deriving DecidableEq

/-- Check-mode divergence classification as a pure function of the three
byte buffers: the contents of the checklist source, of its working-copy
counterpart, and of the live target.  The tests mirror the order of
confcheck.py lines 143, 148, 167 and 171; the final comparison is the
`diff -q` between the working-copy counterpart and the target. -/
def classify3 (sourceBytes wcBytes targetBytes : Option Bytes) : Verdict :=
  if sourceBytes = none then .SourceMissing
  else if targetBytes = none then .TargetMissing
  else if wcBytes = none then .NotTracked
  else if wcBytes = targetBytes then .UpToDate
  else .TargetModifiedLocally

/-- Mutable state threaded through the checklist loop: the file system, the
unconsumed operator inputs, the number of pager invocations so far, and the
`shutil.copyfile(src, dst)` calls performed so far. -/
structure EntryState where
  fs : FS
  rest : List String
  pagerCount : Nat
  copies : List (String × String)

/-- How processing one checklist entry ends: move to the next entry, return
a code from `main`, propagate an `ExternalCommandFailure`, block forever on
operator input, or crash with an unhandled Python exception. -/
inductive EntryOutcome where
  | next
  | ret (code : Int)
  | raised (code : Int)
  | blocked
  | crash
deriving DecidableEq

/-- The check-mode escalation loop (confcheck.py lines 165-190), with fuel
for the `while True:`.  Each iteration re-locates the working-copy
counterpart (missing counterpart returns `FAILURE`), re-runs the non-fatal
`diff -q` between it and the target (equality breaks out of the loop), and
otherwise prompts with spec `yNcv`: `n` returns `FAILURE`, `y` breaks out,
`v` clears the screen (a fatal `run_command`, so a non-zero `clear` exit
raises) and shows the pager (non-fatal, result discarded) before looping,
and `c` performs `shutil.copyfile(target, source)` before looping —
`copyfile` raises `shutil.Error` when source and destination are the same
path. -/
def checkLoop (ctx : Ctx) (source target : String) :
    Nat → EntryState → EntryOutcome × EntryState
  | 0, st => (.blocked, st)
  | fuel + 1, st =>
    if st.fs (file_path_in_working_copy ctx source) = none then (.ret FAILURE, st)
    else if st.fs (file_path_in_working_copy ctx source) = st.fs target then (.next, st)
    else
      match prompt_user "yNcv" st.rest with
      | .exhausted => (.blocked, st)
      | .crash => (.crash, st)
      | .ok c remaining =>
        if c = 'n' then (.ret FAILURE, { st with rest := remaining })
        else if c = 'y' then (.next, { st with rest := remaining })
        else if c = 'v' then
          if ctx.clearExit ≠ 0 then (.raised ctx.clearExit, { st with rest := remaining })
          else
            checkLoop ctx source target fuel
              { st with rest := remaining, pagerCount := st.pagerCount + 1 }
        else if c = 'c' then
          if source = target then (.crash, { st with rest := remaining })
          else
            checkLoop ctx source target fuel
              { st with
                rest := remaining,
                fs := fun p => if p = source then st.fs target else st.fs p,
                copies := st.copies ++ [(target, source)] }
        else checkLoop ctx source target fuel { st with rest := remaining }

/-- Processing of one checklist entry, `for source, target in
read_checklist(...)` loop body (confcheck.py lines 140-190).  A missing
source returns `FAILURE` at once; a missing target asks `Continue [Y/n]?`
with spec `Yn` — only `n` returns `FAILURE`, anything else skips the
remaining checks for the entry; in diff mode a non-fatal `diff -q` between
target and source decides whether to ask `Display diff [Y/n]?` and a `y`
answer clears the screen (fatal `run_command`) and pages the diff
(non-fatal, result discarded) before moving on — diff mode always moves on
otherwise; in check mode the escalation loop runs.  The returned verdict is
the entry's divergence classification. -/
def processEntry (ctx : Ctx) (fuel : Nat) (st : EntryState)
    (source target : String) : EntryOutcome × Verdict × EntryState :=
  if st.fs source = none then (.ret FAILURE, .SourceMissing, st)
  else if st.fs target = none then
    match prompt_user "Yn" st.rest with
    | .exhausted => (.blocked, .TargetMissing, st)
    | .crash => (.crash, .TargetMissing, st)
    | .ok c remaining =>
      if c = 'n' then (.ret FAILURE, .TargetMissing, { st with rest := remaining })
      else (.next, .TargetMissing, { st with rest := remaining })
  else if ctx.diffMode then
    if st.fs target = st.fs source then (.next, .UpToDate, st)
    else
      match prompt_user "Yn" st.rest with
      | .exhausted => (.blocked, .TargetDiffersFromSource, st)
      | .crash => (.crash, .TargetDiffersFromSource, st)
      | .ok c remaining =>
        if c = 'y' then
          if ctx.clearExit ≠ 0 then
            (.raised ctx.clearExit, .TargetDiffersFromSource, { st with rest := remaining })
          else
            (.next, .TargetDiffersFromSource,
              { st with rest := remaining, pagerCount := st.pagerCount + 1 })
        else (.next, .TargetDiffersFromSource, { st with rest := remaining })
  else
    let r := checkLoop ctx source target fuel st
    (r.1,
      classify3 (st.fs source) (st.fs (file_path_in_working_copy ctx source)) (st.fs target),
      r.2)

/-- How the whole checklist loop of `main` ends: `done` means every entry
was processed and `main` reaches `return SUCCESS` (confcheck.py line
192). -/
inductive LoopOutcome where
  | done
  | ret (code : Int)
  | raised (code : Int)
  | blocked
  | crash
deriving DecidableEq

/-- Result of running the checklist loop: its outcome, the divergence
verdict of each processed entry in order, and the final state. -/
structure RunResult where
  outcome : LoopOutcome
  verdicts : List Verdict
  st : EntryState

/-- The checklist loop of `main` (confcheck.py lines 140-192): process the
entries in order, stopping at the first one that does not move on. -/
def runChecklist (ctx : Ctx) (fuel : Nat) :
    List (String × String) → EntryState → RunResult
  | [], st => ⟨.done, [], st⟩
  | (source, target) :: entries, st =>
    match processEntry ctx fuel st source target with
    | (.next, v, st') =>
      let r := runChecklist ctx fuel entries st'
      ⟨r.outcome, v :: r.verdicts, r.st⟩
    | (.ret c, v, st') => ⟨.ret c, [v], st'⟩
    | (.raised c, v, st') => ⟨.raised c, [v], st'⟩
    | (.blocked, v, st') => ⟨.blocked, [v], st'⟩
    | (.crash, v, st') => ⟨.crash, [v], st'⟩

/-- Process exit of a run that reaches the checklist loop (composition of
`return SUCCESS` / `return FAILURE` with the `__main__` block of
confcheck.py lines 331-335): a completed loop exits `SUCCESS`, a returned
code is the exit status, a propagating `ExternalCommandFailure` is caught
and its code passed to `sys.exit` verbatim. -/
def procExit : LoopOutcome → ProcExit
  | .done => .code SUCCESS
  | .ret c => .code c
  | .raised c => .code c
  | .blocked => .hang
  | .crash => .uncaught

/-! ### Helper lemmas -/

lemma foldl_default_mem (l : List Char) :
    ∀ (acc : Option Char) (d : Char),
      l.foldl (fun acc item => if item = item.toUpper then some item else acc) acc
        = some d →
      d ∈ l ∨ acc = some d := by
  induction l with
  | nil => intro acc d h; exact Or.inr h
  | cons c cs ih =>
    intro acc d h
    rw [List.foldl_cons] at h
    rcases ih _ _ h with hm | hacc
    · exact Or.inl (List.mem_cons_of_mem _ hm)
    · by_cases hc : c = c.toUpper
      · rw [if_pos hc] at hacc
        injection hacc with hcd
        exact Or.inl (hcd ▸ List.mem_cons_self _ _)
      · rw [if_neg hc] at hacc
        exact Or.inr hacc

lemma defaultResponse_mem (s : String) (d : Char)
    (h : defaultResponse s = some d) : d ∈ s.data := by
  rcases foldl_default_mem s.data none d h with hm | hacc
  · exact hm
  · simp at hacc

lemma prompt_user_mem (s : String) :
    ∀ (inputs : List String) (c : Char) (remaining : List String),
      prompt_user s inputs = .ok c remaining → c ∈ allowedResponses s := by
  intro inputs
  induction inputs with
  | nil => intro c r h; simp [prompt_user] at h
  | cons input rest ih =>
    intro c r h
    simp only [prompt_user] at h
    split at h
    · split at h
      · next d hd =>
        injection h with h1 _
        subst h1
        exact List.mem_map_of_mem Char.toLower (defaultResponse_mem s d hd)
      · exact absurd h (by simp)
    · split at h
      · next hmem =>
        injection h with h1 _
        exact h1 ▸ hmem
      · exact ih _ _ h

lemma prompt_user_ne_crash (s : String) (hdef : (defaultResponse s).isSome) :
    ∀ inputs, prompt_user s inputs ≠ .crash := by
  intro inputs
  induction inputs with
  | nil => simp [prompt_user]
  | cons input rest ih =>
    simp only [prompt_user]
    split
    · split
      · simp
      · next hd => rw [hd] at hdef; simp at hdef
    · split
      · simp
      · exact ih

lemma file_path_in_working_copy_ne (ctx : Ctx) (source : String) :
    file_path_in_working_copy ctx source ≠ source := by
  intro h
  have hlen := congrArg String.length h
  have hslash : ("/" : String).length = 1 := rfl
  rw [file_path_in_working_copy] at hlen
  simp only [String.length_append, hslash] at hlen
  omega

/-! ### Claim C2 -/

/-- C2: `read_checklist` on a line whose content holds two or more commas.
The claim says the line is split on the first comma only, giving the entry
`("a", "b,c")`, and that the reader never fails on such a line.  The code
instead calls `line.split(separator, 2)`, whose `maxsplit = 2` yields the
three fields `["a", "b", "c"]`, and the two-name unpacking
`source, target = ...` raises an uncaught `ValueError`, crashing the read:
the reader fails on every such line and produces no entry. -/
theorem read_checklist_two_commas_value_error :
    read_checklist ["a,b,c"] = .error .valueError
    ∧ pySplit ',' 2 "a,b,c" = ["a", "b", "c"]
    ∧ pySplit ',' 1 "a,b,c" = ["a", "b,c"] :=
  ⟨rfl, rfl, rfl⟩

/-! ### Claim C3 -/

/-- C3: the Host-Location Validator at `dirLevel = 0`.  The claim (and the
script docstring) say a supplied `dirLevel = 0` selects the last path
segment of the working directory and compares it with the hostname.  But
`main` guards the whole check with `if args.dir_level:`, which is false for
the integer `0`, so the check is skipped entirely: here the current
directory name `otherhost` differs from the hostname, no prompt is read
(the input script is empty, so a mismatch prompt would have blocked), and
the step proceeds. -/
theorem host_location_dirlevel_zero_skipped :
    hostLocationStep (some 0) "/srv/conf/otherhost" "hostA.example.com" []
      = (.proceed, [])
    ∧ pyIndex ((pySplitAll '/' "/srv/conf/otherhost").reverse) 0 = some "otherhost"
    ∧ "otherhost" ≠ "hostA.example.com"
    ∧ hostLocationStep (some 1) "/srv/conf/otherhost/sub" "hostA.example.com" []
      = (.blocked, []) :=
  ⟨rfl, rfl, by decide, rfl⟩

/-! ### Claim C9 -/

/-- C9: the Command Execution Shim.  `run_command` returns `ok true`
exactly when the subprocess exit code is zero (under either fatality
setting); a non-zero exit with the fatal setting raises
`ExternalCommandFailure` carrying that exit code, which the `__main__`
block turns into the process exit status verbatim; a non-zero exit with
the non-fatal setting returns `ok false` without raising. -/
theorem run_command_exit_semantics (return_code : Int) :
    (run_command return_code true = .ok true ↔ return_code = 0)
    ∧ (run_command return_code false = .ok true ↔ return_code = 0)
    ∧ (return_code ≠ 0 → run_command return_code true = .error return_code)
    ∧ (return_code ≠ 0 → run_command return_code false = .ok false)
    ∧ (return_code ≠ 0 →
        topLevel ((run_command return_code true).map (fun _ => SUCCESS))
          = return_code) := by
  by_cases h : return_code = 0 <;>
    simp [run_command, topLevel, h, Except.map]

/-- Witness for C9 at exit code 5: the fatal setting raises with code 5 and
the process exits 5 — in particular not the generic failure status 2. -/
theorem run_command_exit_semantics_witness :
    run_command 5 true = .error 5
    ∧ run_command 5 false = .ok false
    ∧ topLevel ((run_command 5 true).map (fun _ => SUCCESS)) = 5
    ∧ (5 : Int) ≠ 2 :=
  ⟨(run_command_exit_semantics 5).2.2.1 (by decide),
   (run_command_exit_semantics 5).2.2.2.1 (by decide),
   (run_command_exit_semantics 5).2.2.2.2 (by decide),
   by decide⟩

/-! ### Claim C10 -/

/-- C10: package-list mode.  Every subprocess `update_package_list` issues
— the inventory dump and the `git add` / `git commit` / `git push` wrapped
in `sudo` — is run without a `cwd` keyword, so under `Popen` semantics it
executes in the invoking process's current working directory; and when the
host directory exists and all four commands exit 0, `update_package_list`
falls off its end returning Python `None`, which `sys.exit` maps to
process exit status 0. -/
theorem update_package_list_cwd_and_exit
    (hostname working_copy_dir username processCwd : String) (dpkgUsable : Bool) :
    (∀ c ∈ update_package_list_cmds hostname working_copy_dir username dpkgUsable,
        c.cwd = none ∧ c.shell = true ∧ effectiveCwd processCwd c = processCwd)
    ∧ update_package_list true [0, 0, 0, 0] = .ok none
    ∧ sysExitCode none = 0
    ∧ packageModeExit true [0, 0, 0, 0] = 0 := by
  refine ⟨?_, rfl, rfl, rfl⟩
  intro c hc
  simp only [update_package_list_cmds, List.mem_cons, List.mem_singleton,
    List.not_mem_nil, or_false] at hc
  rcases hc with h | h | h | h <;> subst h <;> exact ⟨rfl, rfl, rfl⟩

/-- Witness for C10: the `git push` invocation issued for user `confcheck`
has no `cwd` override and therefore runs in the operator's invocation
directory `/srv/conf/host1/db`; the successful run maps to exit 0. -/
theorem update_package_list_cwd_and_exit_witness :
    (Cmd.mk "sudo -u confcheck sh -c \"git push\"" none true).cwd = none
    ∧ effectiveCwd "/srv/conf/host1/db"
        (Cmd.mk "sudo -u confcheck sh -c \"git push\"" none true) = "/srv/conf/host1/db"
    ∧ packageModeExit true [0, 0, 0, 0] = 0 := by
  have h := update_package_list_cwd_and_exit "host1" "/var/cache/confcheck"
    "confcheck" "/srv/conf/host1/db" true
  have hmem : Cmd.mk "sudo -u confcheck sh -c \"git push\"" none true
      ∈ update_package_list_cmds "host1" "/var/cache/confcheck" "confcheck" true := by
    simp [update_package_list_cmds]
  exact ⟨(h.1 _ hmem).1, (h.1 _ hmem).2.2, h.2.2.2⟩

/-! ### Claim C8 -/

/-- C8: the Interactive Decision Prompt.  For the spec `yN`, empty input
resolves to the default `n`; input `Y` is lower-cased to `y`; the invalid
input `q` merely consumes one input and asks again; and, for every
response spec and every input script, any value `prompt_user` returns
belongs to the lower-cased option set — in particular `q` is never
returned for spec `yN`. -/
theorem prompt_user_contract :
    prompt_user "yN" [""] = .ok 'n' []
    ∧ prompt_user "yN" ["Y"] = .ok 'y' []
    ∧ (∀ remaining, prompt_user "yN" ("q" :: remaining) = prompt_user "yN" remaining)
    ∧ (∀ (s : String) (inputs : List String) (c : Char) (remaining : List String),
        prompt_user s inputs = .ok c remaining → c ∈ allowedResponses s)
    ∧ (∀ (inputs : List String) (c : Char) (remaining : List String),
        prompt_user "yN" inputs = .ok c remaining → c ≠ 'q') := by
  refine ⟨rfl, rfl, fun remaining => rfl, fun s => prompt_user_mem s, ?_⟩
  intro inputs c remaining h hq
  subst hq
  have hm := prompt_user_mem "yN" inputs 'q' remaining h
  exact absurd hm (by decide)

/-- Witness for C8: the empty input resolves to the default `n`, which is
in the option set of `yN`; the script `["q", "no"]` re-prompts past `q`
and returns `n`, not `q`. -/
theorem prompt_user_contract_witness :
    prompt_user "yN" [""] = .ok 'n' []
    ∧ 'n' ∈ allowedResponses "yN"
    ∧ prompt_user "yN" ["q", "no"] = prompt_user "yN" ["no"]
    ∧ 'n' ≠ 'q' :=
  ⟨prompt_user_contract.1,
   prompt_user_contract.2.2.2.1 "yN" [""] 'n' [] rfl,
   prompt_user_contract.2.2.1 ["no"],
   prompt_user_contract.2.2.2.2 ["q", "no"] 'n' [] rfl⟩

/-! ### Claim C1 -/

/-- Concrete file system for the missing-target scenario: the checklist
source exists, the live target does not. -/
def c1fs : FS := fun p => if p = "nginx.conf" then some [0] else none

/-- Concrete ambient data for the missing-target scenario. -/
def c1ctx : Ctx := ⟨"/var/cache/confcheck", "mod", false, 0⟩

/-- C1 counterexample: checklist `nginx.conf,/etc/nginx/nginx.conf`, source
exists, target missing, and the operator just presses enter.  The claim
says empty input resolves to decline and the run fails with exit 2; the
prompt spec in the code is `Yn`, whose default is YES, so the empty input
accepts, the entry is skipped, and the run exits 0. -/
theorem target_missing_default_accepts :
    procExit (runChecklist c1ctx 1 [("nginx.conf", "/etc/nginx/nginx.conf")]
        ⟨c1fs, [""], 0, []⟩).outcome = .code 0
    ∧ ProcExit.code 0 ≠ .code 2 :=
  ⟨rfl, by decide⟩

/-- C1 (amended): in the existence gate, when the entry's source is a
regular file but its target is not, the operator is prompted
`Continue [Y/n]?` with default YES: empty operator input resolves to
accept, which skips the remaining checks for the entry and moves to the
next one, exactly as an explicit `y` does; an explicit `n` is terminal
failure of the run with exit status 2. -/
theorem target_missing_gate (ctx : Ctx) (fuel : Nat) (fs : FS)
    (inputs : List String) (pc : Nat) (cp : List (String × String))
    (source target : String) (entries : List (String × String))
    (hs : fs source ≠ none) (ht : fs target = none) :
    processEntry ctx fuel ⟨fs, "" :: inputs, pc, cp⟩ source target
      = (.next, .TargetMissing, ⟨fs, inputs, pc, cp⟩)
    ∧ processEntry ctx fuel ⟨fs, "y" :: inputs, pc, cp⟩ source target
      = (.next, .TargetMissing, ⟨fs, inputs, pc, cp⟩)
    ∧ processEntry ctx fuel ⟨fs, "n" :: inputs, pc, cp⟩ source target
      = (.ret FAILURE, .TargetMissing, ⟨fs, inputs, pc, cp⟩)
    ∧ (runChecklist ctx fuel ((source, target) :: entries)
        ⟨fs, "n" :: inputs, pc, cp⟩).outcome = .ret FAILURE
    ∧ procExit (.ret FAILURE) = .code 2 := by
  have hpe : prompt_user "Yn" ("" :: inputs) = .ok 'y' inputs := rfl
  have hpy : prompt_user "Yn" ("y" :: inputs) = .ok 'y' inputs := rfl
  have hpn : prompt_user "Yn" ("n" :: inputs) = .ok 'n' inputs := rfl
  have h1 : processEntry ctx fuel ⟨fs, "" :: inputs, pc, cp⟩ source target
      = (.next, .TargetMissing, ⟨fs, inputs, pc, cp⟩) := by
    simp only [processEntry]
    rw [if_neg hs, if_pos ht, hpe]
    simp
  have h2 : processEntry ctx fuel ⟨fs, "y" :: inputs, pc, cp⟩ source target
      = (.next, .TargetMissing, ⟨fs, inputs, pc, cp⟩) := by
    simp only [processEntry]
    rw [if_neg hs, if_pos ht, hpy]
    simp
  have h3 : processEntry ctx fuel ⟨fs, "n" :: inputs, pc, cp⟩ source target
      = (.ret FAILURE, .TargetMissing, ⟨fs, inputs, pc, cp⟩) := by
    simp only [processEntry]
    rw [if_neg hs, if_pos ht, hpn]
    simp
  refine ⟨h1, h2, h3, ?_, rfl⟩
  simp only [runChecklist]
  rw [h3]

/-- Witness for C1 (amended) at the concrete scenario: source
`nginx.conf` exists, target `/etc/nginx/nginx.conf` missing. -/
theorem target_missing_gate_witness :
    processEntry c1ctx 1 ⟨c1fs, [""], 0, []⟩ "nginx.conf" "/etc/nginx/nginx.conf"
      = (.next, .TargetMissing, ⟨c1fs, [], 0, []⟩)
    ∧ processEntry c1ctx 1 ⟨c1fs, ["y"], 0, []⟩ "nginx.conf" "/etc/nginx/nginx.conf"
      = (.next, .TargetMissing, ⟨c1fs, [], 0, []⟩)
    ∧ processEntry c1ctx 1 ⟨c1fs, ["n"], 0, []⟩ "nginx.conf" "/etc/nginx/nginx.conf"
      = (.ret FAILURE, .TargetMissing, ⟨c1fs, [], 0, []⟩)
    ∧ (runChecklist c1ctx 1 [("nginx.conf", "/etc/nginx/nginx.conf")]
        ⟨c1fs, ["n"], 0, []⟩).outcome = .ret FAILURE
    ∧ procExit (.ret FAILURE) = .code 2 :=
  target_missing_gate c1ctx 1 c1fs [] 0 [] "nginx.conf" "/etc/nginx/nginx.conf" []
    (by decide) (by decide)

/-! ### Claim C4 -/

/-- C4 counterexample: `dirLevel = 5` against the working directory
`/srv`, whose reversed segment list has length 2.  The claim says this
fails as a `ConfigError` with exit status 2; in the code the list indexing
raises `IndexError`, which the `__main__` block does not catch (it handles
only `ExternalCommandFailure`), so the interpreter aborts with its
unhandled-exception termination, not with exit status 2. -/
theorem host_location_overdeep_counterexample :
    hostLocationStep (some 5) "/srv" "hostA.example.com" [] = (.indexError, [])
    ∧ mainAborts .indexError = some .uncaught
    ∧ some ProcExit.uncaught ≠ some (ProcExit.code 2) :=
  ⟨rfl, rfl, by decide⟩

/-- C4 (amended): when the supplied (non-zero) `dirLevel` is at least the
number of path segments of the working directory, the Host-Location
Validator raises `IndexError`; the index is not silently truncated, but
the error is not surfaced as a fatal exit-2 condition either — no handler
catches it, so the process aborts with the interpreter's
unhandled-exception termination, which is not exit status 2 (or any
`sys.exit` status). -/
theorem host_location_overdeep_unhandled (n : Int) (cwd hostname : String)
    (inputs : List String) (hn : 0 < n)
    (hdeep : ((pySplitAll '/' cwd).length : Int) ≤ n) :
    hostLocationStep (some n) cwd hostname inputs = (.indexError, inputs)
    ∧ mainAborts .indexError = some .uncaught
    ∧ ∀ c : Int, mainAborts .indexError ≠ some (.code c) := by
  have hne : ¬ n = 0 := by omega
  have h0 : 0 ≤ n := le_of_lt hn
  have hnone : ((pySplitAll '/' cwd).reverse).get? n.toNat = none := by
    rw [List.get?_eq_none]
    have hcast : ((pySplitAll '/' cwd).length : Int) ≤ (n.toNat : Int) := by
      rwa [Int.toNat_of_nonneg h0]
    simpa using Int.ofNat_le.mp hcast
  refine ⟨?_, rfl, ?_⟩
  · simp only [hostLocationStep, pyIndex]
    rw [if_neg hne, if_pos h0, hnone]
  · intro c hc
    simp [mainAborts] at hc

/-- Witness for C4 (amended) at `dirLevel = 5`, cwd `/srv`. -/
theorem host_location_overdeep_unhandled_witness :
    hostLocationStep (some 5) "/srv" "h" ["y"] = (.indexError, ["y"])
    ∧ mainAborts .indexError = some .uncaught
    ∧ ∀ c : Int, mainAborts .indexError ≠ some (.code c) :=
  host_location_overdeep_unhandled 5 "/srv" "h" ["y"] (by decide) (by decide)

/-! ### Claim C5 -/

/-- One-step unfolding of `checkLoop` at positive fuel, with the state in
component form. -/
lemma checkLoop_succ (ctx : Ctx) (source target : String) (fuel : Nat)
    (fs : FS) (rest : List String) (pc : Nat) (cp : List (String × String)) :
    checkLoop ctx source target (fuel + 1) ⟨fs, rest, pc, cp⟩ =
      (if fs (file_path_in_working_copy ctx source) = none then
        (.ret FAILURE, ⟨fs, rest, pc, cp⟩)
      else if fs (file_path_in_working_copy ctx source) = fs target then
        (.next, ⟨fs, rest, pc, cp⟩)
      else
        match prompt_user "yNcv" rest with
        | .exhausted => (.blocked, ⟨fs, rest, pc, cp⟩)
        | .crash => (.crash, ⟨fs, rest, pc, cp⟩)
        | .ok c remaining =>
          if c = 'n' then (.ret FAILURE, ⟨fs, remaining, pc, cp⟩)
          else if c = 'y' then (.next, ⟨fs, remaining, pc, cp⟩)
          else if c = 'v' then
            if ctx.clearExit ≠ 0 then (.raised ctx.clearExit, ⟨fs, remaining, pc, cp⟩)
            else checkLoop ctx source target fuel ⟨fs, remaining, pc + 1, cp⟩
          else if c = 'c' then
            if source = target then (.crash, ⟨fs, remaining, pc, cp⟩)
            else
              checkLoop ctx source target fuel
                ⟨fun p => if p = source then fs target else fs p, remaining, pc,
                  cp ++ [(target, source)]⟩
          else checkLoop ctx source target fuel ⟨fs, remaining, pc, cp⟩) := rfl

/-- Unfolding of `processEntry` into its check-mode branch. -/
lemma processEntry_check (ctx : Ctx) (fuel : Nat) (st : EntryState)
    (source target : String) (hdm : ctx.diffMode = false)
    (hs : ¬ st.fs source = none) (ht : ¬ st.fs target = none) :
    processEntry ctx fuel st source target =
      ((checkLoop ctx source target fuel st).1,
        classify3 (st.fs source) (st.fs (file_path_in_working_copy ctx source))
          (st.fs target),
        (checkLoop ctx source target fuel st).2) := by
  simp only [processEntry]
  rw [if_neg hs, if_neg ht, if_neg (by simp [hdm] : ¬ ctx.diffMode = true)]
/-- C5: check mode with a target that differs from its working-copy
counterpart, operator script `c` then `y`.  Responding `c` performs
`shutil.copyfile(target, source)` — the state after consuming just `["c"]`
has the source path holding the original target bytes — and re-prompts the
same question: the loop has not accepted or failed (it ends `blocked`,
still waiting at the prompt), because the comparison is working-copy
counterpart vs target, which the copy does not change.  Responding `y` at
the re-prompt accepts the entry, and the single-entry run completes with
exit status 0 and the source file's bytes equal to the original target
bytes. -/
theorem copy_then_yes (ctx : Ctx) (fs : FS) (source target : String)
    (pc : Nat) (cp : List (String × String))
    (hdm : ctx.diffMode = false)
    (hs : ¬ fs source = none) (ht : ¬ fs target = none)
    (hwc : ¬ fs (file_path_in_working_copy ctx source) = none)
    (hdiff : ¬ fs (file_path_in_working_copy ctx source) = fs target)
    (hst : source ≠ target) :
    processEntry ctx 2 ⟨fs, ["c"], pc, cp⟩ source target
      = (.blocked, .TargetModifiedLocally,
          ⟨fun p => if p = source then fs target else fs p, [], pc,
            cp ++ [(target, source)]⟩)
    ∧ processEntry ctx 2 ⟨fs, ["c", "y"], pc, cp⟩ source target
      = (.next, .TargetModifiedLocally,
          ⟨fun p => if p = source then fs target else fs p, [], pc,
            cp ++ [(target, source)]⟩)
    ∧ (fun p => if p = source then fs target else fs p) source = fs target
    ∧ (runChecklist ctx 2 [(source, target)] ⟨fs, ["c", "y"], pc, cp⟩).outcome
      = .done
    ∧ (runChecklist ctx 2 [(source, target)] ⟨fs, ["c", "y"], pc, cp⟩).st.fs source
      = fs target
    ∧ procExit .done = .code 0 := by
  have hwcs : ¬ file_path_in_working_copy ctx source = source :=
    file_path_in_working_copy_ne ctx source
  have hts : ¬ target = source := fun h => hst h.symm
  have hfs'wc :
      (fun p => if p = source then fs target else fs p)
        (file_path_in_working_copy ctx source)
        = fs (file_path_in_working_copy ctx source) := if_neg hwcs
  have hfs't :
      (fun p => if p = source then fs target else fs p) target = fs target :=
    if_neg hts
  have hwc' : ¬ (fun p => if p = source then fs target else fs p)
      (file_path_in_working_copy ctx source) = none := by
    rw [hfs'wc]; exact hwc
  have hdiff' : ¬ (fun p => if p = source then fs target else fs p)
      (file_path_in_working_copy ctx source)
      = (fun p => if p = source then fs target else fs p) target := by
    rw [hfs'wc, hfs't]; exact hdiff
  have hp1 : prompt_user "yNcv" ["c"] = .ok 'c' [] := rfl
  have hp2 : prompt_user "yNcv" ["c", "y"] = .ok 'c' ["y"] := rfl
  have hp3 : prompt_user "yNcv" ["y"] = .ok 'y' [] := rfl
  have hp4 : prompt_user "yNcv" ([] : List String) = .exhausted := rfl
  have hone : (1 : Nat) = 0 + 1 := rfl
  have htwo : (2 : Nat) = 1 + 1 := rfl
  have hcstep1 : checkLoop ctx source target 2 ⟨fs, ["c"], pc, cp⟩
      = checkLoop ctx source target 1
          ⟨fun p => if p = source then fs target else fs p, [], pc,
            cp ++ [(target, source)]⟩ := by
    rw [htwo, checkLoop_succ, if_neg hwc, if_neg hdiff, hp1]
    simp only [if_neg (show ¬ ('c' = 'n') from by decide),
      if_neg (show ¬ ('c' = 'y') from by decide),
      if_neg (show ¬ ('c' = 'v') from by decide), if_pos rfl, if_neg hst, if_true]
  have hcstep2 : checkLoop ctx source target 2 ⟨fs, ["c", "y"], pc, cp⟩
      = checkLoop ctx source target 1
          ⟨fun p => if p = source then fs target else fs p, ["y"], pc,
            cp ++ [(target, source)]⟩ := by
    rw [htwo, checkLoop_succ, if_neg hwc, if_neg hdiff, hp2]
    simp only [if_neg (show ¬ ('c' = 'n') from by decide),
      if_neg (show ¬ ('c' = 'y') from by decide),
      if_neg (show ¬ ('c' = 'v') from by decide), if_pos rfl, if_neg hst, if_true]
  have hcl1 : checkLoop ctx source target 1
      ⟨fun p => if p = source then fs target else fs p, [], pc,
        cp ++ [(target, source)]⟩
      = (.blocked,
          ⟨fun p => if p = source then fs target else fs p, [], pc,
            cp ++ [(target, source)]⟩) := by
    rw [hone, checkLoop_succ, if_neg hwc', if_neg hdiff', hp4]
  have hcl2 : checkLoop ctx source target 1
      ⟨fun p => if p = source then fs target else fs p, ["y"], pc,
        cp ++ [(target, source)]⟩
      = (.next,
          ⟨fun p => if p = source then fs target else fs p, [], pc,
            cp ++ [(target, source)]⟩) := by
    rw [hone, checkLoop_succ, if_neg hwc', if_neg hdiff', hp3]
    simp
  have hv : classify3 (fs source) (fs (file_path_in_working_copy ctx source))
      (fs target) = .TargetModifiedLocally := by
    simp [classify3, hs, ht, hwc, hdiff]
  have hpe1 : processEntry ctx 2 ⟨fs, ["c"], pc, cp⟩ source target
      = (.blocked, .TargetModifiedLocally,
          ⟨fun p => if p = source then fs target else fs p, [], pc,
            cp ++ [(target, source)]⟩) := by
    rw [processEntry_check ctx 2 ⟨fs, ["c"], pc, cp⟩ source target hdm hs ht]
    rw [hcstep1, hcl1, hv]
  have hpe2 : processEntry ctx 2 ⟨fs, ["c", "y"], pc, cp⟩ source target
      = (.next, .TargetModifiedLocally,
          ⟨fun p => if p = source then fs target else fs p, [], pc,
            cp ++ [(target, source)]⟩) := by
    rw [processEntry_check ctx 2 ⟨fs, ["c", "y"], pc, cp⟩ source target hdm hs ht]
    rw [hcstep2, hcl2, hv]
  have hrun : runChecklist ctx 2 [(source, target)] ⟨fs, ["c", "y"], pc, cp⟩
      = ⟨.done, [.TargetModifiedLocally],
          ⟨fun p => if p = source then fs target else fs p, [], pc,
            cp ++ [(target, source)]⟩⟩ := by
    simp only [runChecklist]
    rw [hpe2]
  refine ⟨hpe1, hpe2, by simp, ?_, ?_, rfl⟩
  · rw [hrun]
  · rw [hrun]
    simp

/-- Concrete file system for the C5 witness: source `s`, target `t`, and
the working-copy counterpart `w/m/s` all exist, counterpart and target
differ. -/
def c5fs : FS := fun p =>
  if p = "s" then some [1]
  else if p = "t" then some [2]
  else if p = "w/m/s" then some [3]
  else none

/-- Concrete ambient data for the C5 witness: check mode, `clear` exits
0. -/
def c5ctx : Ctx := ⟨"w", "m", false, 0⟩

/-- Witness for C5 at a concrete diverged entry. -/
theorem copy_then_yes_witness :
    processEntry c5ctx 2 ⟨c5fs, ["c"], 0, []⟩ "s" "t"
      = (.blocked, .TargetModifiedLocally,
          ⟨fun p => if p = "s" then c5fs "t" else c5fs p, [], 0, [("t", "s")]⟩)
    ∧ processEntry c5ctx 2 ⟨c5fs, ["c", "y"], 0, []⟩ "s" "t"
      = (.next, .TargetModifiedLocally,
          ⟨fun p => if p = "s" then c5fs "t" else c5fs p, [], 0, [("t", "s")]⟩)
    ∧ (fun p => if p = "s" then c5fs "t" else c5fs p) "s" = c5fs "t"
    ∧ (runChecklist c5ctx 2 [("s", "t")] ⟨c5fs, ["c", "y"], 0, []⟩).outcome = .done
    ∧ (runChecklist c5ctx 2 [("s", "t")] ⟨c5fs, ["c", "y"], 0, []⟩).st.fs "s"
      = c5fs "t"
    ∧ procExit .done = .code 0 := by
  have h := copy_then_yes c5ctx c5fs "s" "t" 0 [] rfl (by decide) (by decide)
    (by decide) (by decide) (by decide)
  simpa using h

/-! ### Claim C6 -/

/-- Diff-mode entry processing with both files present: it always moves to
the next entry (or blocks waiting for an answer; with a failing `clear` and
an accepted prompt it raises the clear's code), and it never changes the
file system. -/
lemma diff_mode_entry (ctx : Ctx) (fuel : Nat) (st : EntryState)
    (source target : String) (hdm : ctx.diffMode = true)
    (hs : ¬ st.fs source = none) (ht : ¬ st.fs target = none) :
    ((processEntry ctx fuel st source target).1 = .next
      ∨ (processEntry ctx fuel st source target).1 = .blocked
      ∨ ((processEntry ctx fuel st source target).1 = .raised ctx.clearExit
          ∧ ctx.clearExit ≠ 0))
    ∧ (processEntry ctx fuel st source target).2.2.fs = st.fs := by
  simp only [processEntry]
  rw [if_neg hs, if_neg ht, if_pos hdm]
  by_cases he : st.fs target = st.fs source
  · rw [if_pos he]
    exact ⟨Or.inl rfl, rfl⟩
  · rw [if_neg he]
    rcases hp : prompt_user "Yn" st.rest with ⟨c, remaining⟩ | h | h
    · by_cases hy : c = 'y'
      · subst hy
        by_cases hcl : ctx.clearExit = 0
        · refine ⟨Or.inl ?_, ?_⟩ <;> simp [hcl]
        · refine ⟨Or.inr (Or.inr ⟨?_, hcl⟩), ?_⟩ <;> simp [hcl]
      · refine ⟨Or.inl ?_, ?_⟩ <;> simp [hy]
    · exact ⟨Or.inr (Or.inl rfl), rfl⟩
    · exact absurd hp (prompt_user_ne_crash "Yn" (by decide) st.rest)

/-- A diff-mode run over entries whose sources and targets all exist, with
a succeeding `clear`, either completes or blocks on operator input — it
never fails. -/
lemma diff_mode_run (ctx : Ctx) (hdm : ctx.diffMode = true)
    (hclear : ctx.clearExit = 0) (fuel : Nat) :
    ∀ (entries : List (String × String)) (st : EntryState),
      (∀ p ∈ entries, ¬ st.fs p.1 = none ∧ ¬ st.fs p.2 = none) →
      (runChecklist ctx fuel entries st).outcome = .done
        ∨ (runChecklist ctx fuel entries st).outcome = .blocked := by
  intro entries
  induction entries with
  | nil => intro st _; exact Or.inl rfl
  | cons e rest ih =>
    intro st hpres
    obtain ⟨s, t⟩ := e
    have hh := diff_mode_entry ctx fuel st s t hdm
      (hpres (s, t) (List.mem_cons_self _ _)).1
      (hpres (s, t) (List.mem_cons_self _ _)).2
    rcases hpe : processEntry ctx fuel st s t with ⟨o, v, st'⟩
    rw [hpe] at hh
    rcases hh with ⟨ho, hfs⟩
    rcases ho with ho | ho | ⟨ho, hcl⟩
    · subst ho
      simp only [runChecklist]
      rw [hpe]
      exact ih st' (fun p hp => by
        rw [show st'.fs = st.fs from hfs]
        exact hpres p (List.mem_cons_of_mem _ hp))
    · subst ho
      simp only [runChecklist]
      rw [hpe]
      exact Or.inr rfl
    · exact absurd hcl (by simp [hclear])

/-- C6: diff mode never fails the run.  With both files of an entry
present: when the operator answers anything but `y` to the show-diff
prompt, the entry moves on with no pager invocation and no state change —
whether or not target and source differ; the pager pipeline runs with the
non-fatal setting, so no pager exit code can raise; and (with the external
`clear` succeeding) a diff-mode run over such entries either completes —
exiting `SUCCESS` — or blocks waiting for an answer, regardless of
divergence and of the operator's answers. -/
theorem diff_mode_never_fails (ctx : Ctx) (hdm : ctx.diffMode = true) :
    (∀ (fuel : Nat) (st : EntryState) (source target : String)
        (c : Char) (remaining : List String),
        ¬ st.fs source = none → ¬ st.fs target = none →
        prompt_user "Yn" st.rest = .ok c remaining → ¬ c = 'y' →
        (processEntry ctx fuel st source target).1 = .next
          ∧ (processEntry ctx fuel st source target).2.2.pagerCount = st.pagerCount
          ∧ (processEntry ctx fuel st source target).2.2.fs = st.fs)
    ∧ (∀ return_code e : Int, run_command return_code false ≠ .error e)
    ∧ (ctx.clearExit = 0 →
        ∀ (fuel : Nat) (entries : List (String × String)) (st : EntryState),
          (∀ p ∈ entries, ¬ st.fs p.1 = none ∧ ¬ st.fs p.2 = none) →
          (runChecklist ctx fuel entries st).outcome = .done
            ∨ (runChecklist ctx fuel entries st).outcome = .blocked)
    ∧ procExit .done = .code SUCCESS := by
  refine ⟨?_, ?_, fun hclear => diff_mode_run ctx hdm hclear, rfl⟩
  · intro fuel st source target c remaining hs ht hp hy
    simp only [processEntry]
    rw [if_neg hs, if_neg ht, if_pos hdm]
    by_cases he : st.fs target = st.fs source
    · rw [if_pos he]
      exact ⟨rfl, rfl, rfl⟩
    · rw [if_neg he, hp]
      refine ⟨?_, ?_, ?_⟩ <;> simp [hy]
  · intro return_code e
    simp [run_command]

/-- Concrete file system for the C6 witness: `s` and `t` exist and
differ. -/
def c6fs : FS := fun p =>
  if p = "s" then some [1] else if p = "t" then some [2] else none

/-- Concrete ambient data for the C6 witness: diff mode, `clear` exits
0. -/
def c6ctx : Ctx := ⟨"w", "m", true, 0⟩

/-- Witness for C6: target differs from source, operator declines the
diff; the entry moves on without touching the pager count and the run
completes. -/
theorem diff_mode_never_fails_witness :
    (processEntry c6ctx 1 ⟨c6fs, ["n"], 0, []⟩ "s" "t").1 = .next
    ∧ (processEntry c6ctx 1 ⟨c6fs, ["n"], 0, []⟩ "s" "t").2.2.pagerCount = 0
    ∧ ((runChecklist c6ctx 1 [("s", "t")] ⟨c6fs, ["n"], 0, []⟩).outcome = .done
        ∨ (runChecklist c6ctx 1 [("s", "t")] ⟨c6fs, ["n"], 0, []⟩).outcome
          = .blocked)
    ∧ procExit .done = .code SUCCESS := by
  have h := diff_mode_never_fails c6ctx rfl
  have hd := h.1 1 ⟨c6fs, ["n"], 0, []⟩ "s" "t" 'n' []
    (by decide) (by decide) rfl (by decide)
  exact ⟨hd.1, hd.2.1, h.2.2.1 rfl 1 [("s", "t")] ⟨c6fs, ["n"], 0, []⟩
    (by decide), h.2.2.2⟩

/-! ### Claim C7 -/

/-- The escalation loop only ever appends to the record of performed
copies. -/
lemma checkLoop_copies_mono (ctx : Ctx) (source target : String) :
    ∀ (fuel : Nat) (st : EntryState),
      ∃ l, (checkLoop ctx source target fuel st).2.copies = st.copies ++ l := by
  intro fuel
  induction fuel with
  | zero => intro st; exact ⟨[], by simp [checkLoop]⟩
  | succ n ih =>
    intro st
    obtain ⟨fs, rest, pc, cp⟩ := st
    rw [checkLoop_succ]
    by_cases h1 : fs (file_path_in_working_copy ctx source) = none
    · rw [if_pos h1]; exact ⟨[], by simp⟩
    · rw [if_neg h1]
      by_cases h2 : fs (file_path_in_working_copy ctx source) = fs target
      · rw [if_pos h2]; exact ⟨[], by simp⟩
      · rw [if_neg h2]
        rcases hp : prompt_user "yNcv" rest with ⟨c, remaining⟩ | h | h
        · by_cases hn : c = 'n'
          · exact ⟨[], by simp [hn]⟩
          · by_cases hy : c = 'y'
            · exact ⟨[], by simp [hn, hy]⟩
            · by_cases hv : c = 'v'
              · by_cases hcl : ctx.clearExit = 0
                · obtain ⟨l, hl⟩ := ih ⟨fs, remaining, pc + 1, cp⟩
                  exact ⟨l, by simpa [hn, hy, hv, hcl] using hl⟩
                · exact ⟨[], by simp [hn, hy, hv, hcl]⟩
              · by_cases hc : c = 'c'
                · by_cases hstt : source = target
                  · exact ⟨[], by simp [hn, hy, hv, hc, hstt]⟩
                  · obtain ⟨l, hl⟩ := ih
                      ⟨fun p => if p = source then fs target else fs p,
                        remaining, pc, cp ++ [(target, source)]⟩
                    refine ⟨(target, source) :: l, ?_⟩
                    simp only [hn, hy, hv, hc, hstt, if_neg, ite_false, if_pos,
                      ite_true, if_true]
                    simp [hn, hy, hv, hc, hstt, hl, List.append_assoc]
                · obtain ⟨l, hl⟩ := ih ⟨fs, remaining, pc, cp⟩
                  exact ⟨l, by simpa [hn, hy, hv, hc] using hl⟩
        · exact ⟨[], by simp⟩
        · exact ⟨[], by simp⟩

/-- If a pass through the escalation loop recorded no copy, it did not
change the file system. -/
lemma checkLoop_no_copy_fs (ctx : Ctx) (source target : String) :
    ∀ (fuel : Nat) (st : EntryState),
      (checkLoop ctx source target fuel st).2.copies = st.copies →
      (checkLoop ctx source target fuel st).2.fs = st.fs := by
  intro fuel
  induction fuel with
  | zero => intro st _; simp [checkLoop]
  | succ n ih =>
    intro st
    obtain ⟨fs, rest, pc, cp⟩ := st
    rw [checkLoop_succ]
    by_cases h1 : fs (file_path_in_working_copy ctx source) = none
    · rw [if_pos h1]; intro _; rfl
    · rw [if_neg h1]
      by_cases h2 : fs (file_path_in_working_copy ctx source) = fs target
      · rw [if_pos h2]; intro _; rfl
      · rw [if_neg h2]
        rcases hp : prompt_user "yNcv" rest with ⟨c, remaining⟩ | h | h
        · by_cases hn : c = 'n'
          · simp [hn]
          · by_cases hy : c = 'y'
            · simp [hn, hy]
            · by_cases hv : c = 'v'
              · by_cases hcl : ctx.clearExit = 0
                · intro h
                  have := ih ⟨fs, remaining, pc + 1, cp⟩
                    (by simpa [hn, hy, hv, hcl] using h)
                  simpa [hn, hy, hv, hcl] using this
                · simp [hn, hy, hv, hcl]
              · by_cases hc : c = 'c'
                · by_cases hstt : source = target
                  · simp [hn, hy, hv, hc, hstt]
                  · subst hc
                    intro h
                    exfalso
                    obtain ⟨l, hl⟩ := checkLoop_copies_mono ctx source target n
                      ⟨fun p => if p = source then fs target else fs p,
                        remaining, pc, cp ++ [(target, source)]⟩
                    simp only [hn, hy, hv, hstt] at h
                    simp only [if_false, ite_false, if_neg hstt] at h
                    simp [hstt] at h
                    rw [hl] at h
                    have hlen := congrArg List.length h
                    simp [List.length_append] at hlen
                · intro h
                  have := ih ⟨fs, remaining, pc, cp⟩
                    (by simpa [hn, hy, hv, hc] using h)
                  simpa [hn, hy, hv, hc] using this
        · intro _; rfl
        · intro _; rfl

/-- Processing one entry only ever appends to the record of performed
copies. -/
lemma processEntry_copies_mono (ctx : Ctx) (fuel : Nat) (st : EntryState)
    (source target : String) :
    ∃ l, (processEntry ctx fuel st source target).2.2.copies = st.copies ++ l := by
  simp only [processEntry]
  by_cases hs : st.fs source = none
  · rw [if_pos hs]; exact ⟨[], by simp⟩
  · rw [if_neg hs]
    by_cases ht : st.fs target = none
    · rw [if_pos ht]
      rcases hp : prompt_user "Yn" st.rest with ⟨c, remaining⟩ | h | h
      · exact ⟨[], by by_cases hn : c = 'n' <;> simp [hn]⟩
      · exact ⟨[], by simp⟩
      · exact ⟨[], by simp⟩
    · rw [if_neg ht]
      by_cases hd : ctx.diffMode = true
      · rw [if_pos hd]
        by_cases he : st.fs target = st.fs source
        · rw [if_pos he]; exact ⟨[], by simp⟩
        · rw [if_neg he]
          rcases hp : prompt_user "Yn" st.rest with ⟨c, remaining⟩ | h | h
          · exact ⟨[], by
              by_cases hy : c = 'y' <;> by_cases hcl : ctx.clearExit = 0 <;>
                simp [hy, hcl]⟩
          · exact ⟨[], by simp⟩
          · exact ⟨[], by simp⟩
      · rw [if_neg hd]
        exact checkLoop_copies_mono ctx source target fuel st

/-- If processing one entry recorded no copy, it did not change the file
system. -/
lemma processEntry_no_copy_fs (ctx : Ctx) (fuel : Nat) (st : EntryState)
    (source target : String)
    (h : (processEntry ctx fuel st source target).2.2.copies = st.copies) :
    (processEntry ctx fuel st source target).2.2.fs = st.fs := by
  revert h
  simp only [processEntry]
  by_cases hs : st.fs source = none
  · rw [if_pos hs]; intro _; rfl
  · rw [if_neg hs]
    by_cases ht : st.fs target = none
    · rw [if_pos ht]
      rcases hp : prompt_user "Yn" st.rest with ⟨c, remaining⟩ | h | h
      · by_cases hn : c = 'n' <;> simp [hn]
      · intro _; rfl
      · intro _; rfl
    · rw [if_neg ht]
      by_cases hd : ctx.diffMode = true
      · rw [if_pos hd]
        by_cases he : st.fs target = st.fs source
        · rw [if_pos he]; intro _; rfl
        · rw [if_neg he]
          rcases hp : prompt_user "Yn" st.rest with ⟨c, remaining⟩ | h | h
          · by_cases hy : c = 'y' <;> by_cases hcl : ctx.clearExit = 0 <;>
              simp [hy, hcl]
          · intro _; rfl
          · intro _; rfl
      · rw [if_neg hd]
        exact checkLoop_no_copy_fs ctx source target fuel st

/-- A checklist run only ever appends to the record of performed copies. -/
lemma runChecklist_copies_mono (ctx : Ctx) (fuel : Nat) :
    ∀ (entries : List (String × String)) (st : EntryState),
      ∃ l, (runChecklist ctx fuel entries st).st.copies = st.copies ++ l := by
  intro entries
  induction entries with
  | nil => intro st; exact ⟨[], by simp [runChecklist]⟩
  | cons e rest ih =>
    intro st
    obtain ⟨s, t⟩ := e
    obtain ⟨l1, hl1⟩ := processEntry_copies_mono ctx fuel st s t
    rcases hpe : processEntry ctx fuel st s t with ⟨o, v, st'⟩
    rw [hpe] at hl1
    cases o
    case next =>
      obtain ⟨l2, hl2⟩ := ih st'
      refine ⟨l1 ++ l2, ?_⟩
      simp only [runChecklist]
      rw [hpe]
      simp only []
      rw [hl2, hl1, List.append_assoc]
    all_goals
      refine ⟨l1, ?_⟩
      simp only [runChecklist]
      rw [hpe]
      simpa using hl1

/-- A checklist run that recorded no copy did not change the file
system. -/
lemma runChecklist_no_copy_fs (ctx : Ctx) (fuel : Nat) :
    ∀ (entries : List (String × String)) (st : EntryState),
      (runChecklist ctx fuel entries st).st.copies = st.copies →
      (runChecklist ctx fuel entries st).st.fs = st.fs := by
  intro entries
  induction entries with
  | nil => intro st _; rfl
  | cons e rest ih =>
    intro st h
    obtain ⟨s, t⟩ := e
    obtain ⟨l1, hl1⟩ := processEntry_copies_mono ctx fuel st s t
    rcases hpe : processEntry ctx fuel st s t with ⟨o, v, st'⟩
    rw [hpe] at hl1
    cases o
    case next =>
      obtain ⟨l2, hl2⟩ := runChecklist_copies_mono ctx fuel rest st'
      simp only [runChecklist] at h ⊢
      rw [hpe] at h ⊢
      simp only [] at h ⊢
      rw [hl2, hl1] at h
      have hlen := congrArg List.length h
      simp only [List.append_assoc, List.length_append] at hlen
      have hl1e : l1 = [] := List.eq_nil_of_length_eq_zero (by omega)
      have hl2e : l2 = [] := List.eq_nil_of_length_eq_zero (by omega)
      subst hl1e; subst hl2e
      have hfs1 : st'.fs = st.fs := by
        have hmono := processEntry_no_copy_fs ctx fuel st s t
        rw [hpe] at hmono
        exact hmono (by simpa using hl1)
      have hfs2 : (runChecklist ctx fuel rest st').st.fs = st'.fs :=
        ih st' (by simpa using hl2)
      rw [hfs2, hfs1]
    all_goals
      simp only [runChecklist] at h ⊢
      rw [hpe] at h ⊢
      simp only [] at h ⊢
      have hmono := processEntry_no_copy_fs ctx fuel st s t
      rw [hpe] at hmono
      exact hmono h

/-- In check mode the verdict recorded for an entry is exactly the pure
classification of the three byte buffers. -/
lemma processEntry_verdict_classify3 (ctx : Ctx) (fuel : Nat) (st : EntryState)
    (source target : String) (hdm : ctx.diffMode = false) :
    (processEntry ctx fuel st source target).2.1
      = classify3 (st.fs source) (st.fs (file_path_in_working_copy ctx source))
          (st.fs target) := by
  simp only [processEntry]
  by_cases hs : st.fs source = none
  · rw [if_pos hs]; simp [classify3, hs]
  · rw [if_neg hs]
    by_cases ht : st.fs target = none
    · rw [if_pos ht]
      rcases hp : prompt_user "Yn" st.rest with ⟨c, remaining⟩ | h | h
      · by_cases hn : c = 'n' <;> simp [hn, classify3, hs, ht]
      · simp [classify3, hs, ht]
      · simp [classify3, hs, ht]
    · rw [if_neg ht, if_neg (by simp [hdm] : ¬ ctx.diffMode = true)]

/-- C7: the divergence verdict is a pure, deterministic function of byte
contents.  `classify3` takes only the three byte buffers (no timestamps or
permissions exist in its domain); with all three files present its result
is `UpToDate` exactly when the working-copy counterpart equals the target
and `TargetModifiedLocally` exactly otherwise, so exactly one of the two
results; in check mode the verdict the engine records per entry is
`classify3` of the entry's buffers; and a check-mode run that performed no
copy leaves the file system unchanged, so running it again from the
resulting state with the same operator script reproduces the whole result
— in particular the same verdict sequence. -/
theorem divergence_classification_pure (sb wb tb : Option Bytes)
    (hs : sb ≠ none) (hw : wb ≠ none) (ht : tb ≠ none) :
    (classify3 sb wb tb = .UpToDate ↔ wb = tb)
    ∧ (classify3 sb wb tb = .TargetModifiedLocally ↔ ¬ wb = tb)
    ∧ ((classify3 sb wb tb = .UpToDate
          ∧ ¬ classify3 sb wb tb = .TargetModifiedLocally)
        ∨ (classify3 sb wb tb = .TargetModifiedLocally
          ∧ ¬ classify3 sb wb tb = .UpToDate))
    ∧ (∀ (ctx : Ctx) (fuel : Nat) (st : EntryState) (source target : String),
        ctx.diffMode = false →
        (processEntry ctx fuel st source target).2.1
          = classify3 (st.fs source)
              (st.fs (file_path_in_working_copy ctx source)) (st.fs target))
    ∧ (∀ (ctx : Ctx) (fuel : Nat) (entries : List (String × String)) (fs : FS)
          (inputs : List String) (pc : Nat),
        (runChecklist ctx fuel entries ⟨fs, inputs, pc, []⟩).st.copies = [] →
        runChecklist ctx fuel entries
            ⟨(runChecklist ctx fuel entries ⟨fs, inputs, pc, []⟩).st.fs,
              inputs, pc, []⟩
          = runChecklist ctx fuel entries ⟨fs, inputs, pc, []⟩) := by
  have h1 : classify3 sb wb tb
      = if wb = tb then .UpToDate else .TargetModifiedLocally := by
    simp [classify3, hs, hw, ht]
  refine ⟨?_, ?_, ?_,
    fun ctx fuel st source target hdm =>
      processEntry_verdict_classify3 ctx fuel st source target hdm, ?_⟩
  · rw [h1]; by_cases he : wb = tb <;> simp [he]
  · rw [h1]; by_cases he : wb = tb <;> simp [he]
  · rw [h1]; by_cases he : wb = tb <;> simp [he]
  · intro ctx fuel entries fs inputs pc h
    have hfs := runChecklist_no_copy_fs ctx fuel entries ⟨fs, inputs, pc, []⟩
      (by simpa using h)
    rw [show (runChecklist ctx fuel entries ⟨fs, inputs, pc, []⟩).st.fs = fs
      from hfs]

/-- Concrete file system for the C7 witness: an up-to-date entry (the
working-copy counterpart equals the target). -/
def c7fs : FS := fun p =>
  if p = "s" then some [1]
  else if p = "t" then some [2]
  else if p = "w/m/s" then some [2]
  else none

/-- Witness for C7 at concrete buffers and a concrete auto-pass run. -/
theorem divergence_classification_pure_witness :
    (classify3 (some [1]) (some [2]) (some [2]) = .UpToDate
      ↔ (some [2] : Option Bytes) = some [2])
    ∧ (classify3 (some [1]) (some [2]) (some [3]) = .TargetModifiedLocally
      ↔ ¬ (some [2] : Option Bytes) = some [3])
    ∧ runChecklist c5ctx 1 [("s", "t")]
        ⟨(runChecklist c5ctx 1 [("s", "t")] ⟨c7fs, [], 0, []⟩).st.fs, [], 0, []⟩
      = runChecklist c5ctx 1 [("s", "t")] ⟨c7fs, [], 0, []⟩ :=
  ⟨(divergence_classification_pure (some [1]) (some [2]) (some [2])
      (by decide) (by decide) (by decide)).1,
   (divergence_classification_pure (some [1]) (some [2]) (some [3])
      (by decide) (by decide) (by decide)).2.1,
   (divergence_classification_pure (some [1]) (some [2]) (some [2])
      (by decide) (by decide) (by decide)).2.2.2.2
     c5ctx 1 [("s", "t")] c7fs [] 0 rfl⟩
